import Mathlib

/-!
Verification of the LLM Literature Explorer against its specification.

The development shallowly embeds the two Python modules:
`src/llm_literature_search.py` (query runner, deduplicator, aggregator,
persister) and `src/visualize_results.py` (report renderer).  Pure logic
becomes Lean functions, the file system and the HTTP service become
explicit state values, and Python dicts (insertion ordered) become
association lists.
-/

/-! ## Data model

A repository record as consumed by the tool.  Field names follow the JSON
keys used by the source.  Keys that the source reads defensively
(`repo.get(...)` or an explicit `in` test) are `Option`s; `language` and
`description` are nullable in the API itself.
-/

structure Repo where
  id : Nat
  name : String
  full_name : String
  html_url : String
  description : Option String
  created_at : Option String
  updated_at : String
  language : Option String
  stargazers_count : Option Nat
  forks_count : Nat
  topics : Option (List String)
deriving DecidableEq

/-- Value of a decimal digit character, as Python `int` sees it. -/
def charDigit (c : Char) : Nat := c.toNat - '0'.toNat

/-- Embeds `datetime.strptime(created_at, "%Y-%m-%dT%H:%M:%SZ").year`
(line 153 of `llm_literature_search.py`): CPython `%Y` consumes exactly
four digit characters, so the year is the integer value of the first four
characters of the timestamp.  Malformed timestamps raise in Python and are
outside the modelled behaviour. -/
def parseYear (s : String) : Nat :=
  (s.data.take 4).foldl (fun acc c => acc * 10 + charDigit c) 0

/-- Python dict counter update `d[k] = d.get(k, 0) + 1` on an insertion
ordered association list: an existing key is updated in place, a new key
is appended at the end. -/
def bump (m : List (String × Nat)) (k : String) : List (String × Nat) :=
  match m with
  | [] => [(k, 1)]
  | (k', v) :: rest => if k' = k then (k', v + 1) :: rest else (k', v) :: bump rest k

/-- Count stored for key `k` (0 when absent), Python `d.get(k, 0)`. -/
def getCount (m : List (String × Nat)) (k : String) : Nat :=
  match m with
  | [] => 0
  | (k', v) :: rest => if k' = k then v else getCount rest k

/-- The aggregate statistics value built by `analyze_results`
(lines 125-137).  Mappings are insertion ordered association lists, so the
value also records iteration order. -/
structure Analysis where
  total_count : Nat
  languages : List (String × Nat)
  topics : List (String × Nat)
  created_dates : List (String × Nat)
  stars_distribution : List (String × Nat)
deriving DecidableEq

/-- The six fixed star bucket keys, in the literal order of the source. -/
def sixKeys : List String :=
  ["0-10", "11-50", "51-100", "101-500", "501-1000", "1001+"]

/-- Initial `stars_distribution` dict literal (lines 130-137). -/
def starsInit : List (String × Nat) :=
  [("0-10", 0), ("11-50", 0), ("51-100", 0), ("101-500", 0), ("501-1000", 0), ("1001+", 0)]

/-- Bucket selected by the `if/elif` chain on lines 158-169. -/
def starsKey (stars : Nat) : String :=
  if stars ≤ 10 then "0-10"
  else if stars ≤ 50 then "11-50"
  else if stars ≤ 100 then "51-100"
  else if stars ≤ 500 then "101-500"
  else if stars ≤ 1000 then "501-1000"
  else "1001+"

/-- Python truthiness test `if language:` (line 143): `None` and the empty
string are falsy. -/
def truthyLang (r : Repo) : Bool :=
  match r.language with
  | some l => l ≠ ""
  | none => false

/-- Loop body of `analyze_results` (lines 140-169) for one record. -/
def analyzeStep (a : Analysis) (r : Repo) : Analysis :=
  let a1 :=
    match r.language with
    | some l => if l ≠ "" then { a with languages := bump a.languages l } else a
    | none => a
  let a2 := { a1 with topics := (r.topics.getD []).foldl bump a1.topics }
  let a3 :=
    match r.created_at with
    | some s => { a2 with created_dates := bump a2.created_dates (toString (parseYear s)) }
    | none => a2
  { a3 with stars_distribution := bump a3.stars_distribution (starsKey (r.stargazers_count.getD 0)) }

/-- State of `analysis` after the loop on lines 140-169, before the final
re-sorting. -/
def analyzeLoop (items : List Repo) : Analysis :=
  items.foldl analyzeStep
    { total_count := items.length
      languages := []
      topics := []
      created_dates := []
      stars_distribution := starsInit }

/-- Comparator of `sorted(..., key=lambda x: x[1], reverse=True)`
(lines 172-175): a stable sort that is non-increasing in the count. -/
def countDescLe (x y : String × Nat) : Bool := decide (y.2 ≤ x.2)

/-- Python string `<`: lexicographic comparison of code points, with a
proper prefix ordered first. -/
def pyCharListLt : List Char → List Char → Bool
  | [], [] => false
  | [], _ :: _ => true
  | _ :: _, [] => false
  | a :: as, b :: bs => if a < b then true else if a = b then pyCharListLt as bs else false

/-- Python string `<` on `String`. -/
def pyStrLt (a b : String) : Bool := pyCharListLt a.data b.data

/-- Comparator of `sorted(analysis["created_dates"].items())` (line 176):
Python tuple order, keys first, values as tie break. -/
def createdLe (x y : String × Nat) : Bool :=
  pyStrLt x.1 y.1 || (x.1 == y.1 && decide (x.2 ≤ y.2))

/-- Embeds `analyze_results` (lines 115-178): the aggregation loop
followed by the three `sorted` calls on lines 172-176.  Python `sorted` is
a stable sort; it is modelled by `List.mergeSort`, which is stable. -/
def analyzeResults (items : List Repo) : Analysis :=
  let a := analyzeLoop items
  { a with
    languages := a.languages.mergeSort countDescLe
    topics := a.topics.mergeSort countDescLe
    created_dates := a.created_dates.mergeSort createdLe }

/-! ## Deduplicator (lines 107-113) -/

/-- The dict building loop of `find_llm_literature_projects`
(lines 108-111): `unique_repos[repo["id"]] = repo` for the first
occurrence of each id, insertion ordered. -/
def dedupeAux : List Repo → List (Nat × Repo) → List (Nat × Repo)
  | [], acc => acc
  | r :: rest, acc =>
    if (acc.map Prod.fst).contains r.id then dedupeAux rest acc
    else dedupeAux rest (acc ++ [(r.id, r)])

/-- Embeds lines 108-113: `list(unique_repos.values())`. -/
def dedupeById (l : List Repo) : List Repo := (dedupeAux l []).map Prod.snd

/-- Recursive reformulation of the deduplication loop used in proofs:
records whose id is in `seen` are dropped, others are kept once. -/
def dedupeNew : List Repo → List Nat → List Repo
  | [], _ => []
  | r :: rest, seen =>
    if seen.contains r.id then dedupeNew rest seen
    else r :: dedupeNew rest (seen ++ [r.id])

/-! ## Analysis filename derivation (line 234)

`args.output.replace(".json", "_analysis.json")`: Python `str.replace`
substitutes every non-overlapping occurrence, scanning left to right.
-/

/-- The replacement text `"_analysis.json"`. -/
def newJson : List Char := "_analysis.json".data

/-- Tests whether a character list starts with `".json"`.  The five
comparisons are listed last-position first so that the expression already
reduces to `false` on short remainders of the scan. -/
def startsJson : List Char → Bool
  | c1 :: c2 :: c3 :: c4 :: c5 :: _ =>
    c5 == 'n' && c4 == 'o' && c3 == 's' && c2 == 'j' && c1 == '.'
  | _ => false

/-- True when `".json"` occurs somewhere in the character list. -/
def containsJson : List Char → Bool
  | [] => false
  | c :: rest => startsJson (c :: rest) || containsJson rest

/-- Left to right scan of Python `str.replace(".json", "_analysis.json")`:
at each position, a match emits the replacement and skips five characters,
otherwise one character is copied. -/
def replaceJsonAux : List Char → List Char
  | '.' :: 'j' :: 's' :: 'o' :: 'n' :: rest => newJson ++ replaceJsonAux rest
  | c :: rest => c :: replaceJsonAux rest
  | [] => []

/-- Embeds `args.output.replace(".json", "_analysis.json")` from `main`
(line 234), which derives the statistics filename from the collection
filename. -/
def replaceDotJson (s : String) : String := ⟨replaceJsonAux s.data⟩

/-! ## Query runner (lines 35-113)

The remote service is an oracle mapping each query string to one HTTP
response.  A response carries its status code, its raw text, and the
`items` list of its JSON body when that key is present (`None` models a
body without an `items` key).  The console is a list of printed lines.
The fixed `time.sleep(2)` between queries (line 105) is a real-time
effect with no observable value and is not modelled.
-/

structure HttpResponse where
  status : Nat
  text : String
  items : Option (List Repo)
deriving DecidableEq

/-- Embeds `search_repositories` (lines 35-67): a non-200 status prints
the status code and the body and yields `{"items": []}`; a 200 status
yields the parsed JSON body. -/
def searchRepositories (resp : HttpResponse) : List String × Option (List Repo) :=
  if resp.status ≠ 200 then
    (["Error: " ++ toString resp.status, resp.text], some [])
  else
    ([], resp.items)

/-- The ten literal query phrases (lines 82-93). -/
def queries : List String :=
  ["language models literature",
   "llm literature analysis",
   "gpt literary analysis",
   "natural language processing literature",
   "computational literary analysis",
   "llm poetry generation",
   "transformer models literature",
   "literary text generation",
   "nlp literary criticism",
   "ai storytelling"]

/-- One iteration of the query loop (lines 97-105): print the progress
line, issue the search, and extend `all_results` when the result has an
`items` key. -/
def queryStep (respond : String → HttpResponse) (acc : List String × List Repo)
    (q : String) : List String × List Repo :=
  let r := searchRepositories (respond q)
  (acc.1 ++ ["Searching for: " ++ q] ++ r.1, acc.2 ++ (r.2).getD [])

/-- Embeds `find_llm_literature_projects` (lines 69-113): run every query
in order, concatenate the item lists, deduplicate by id.  Returns the
console output and the deduplicated `items` list. -/
def findLlmLiteratureProjects (respond : String → HttpResponse) :
    List String × List Repo :=
  let acc := queries.foldl (queryStep respond) ([], [])
  (acc.1, dedupeById acc.2)

/-! ## Report renderer (`visualize_results.py`)

The file system is a pair of a directory list and a file map.  File
contents are modelled semantically: an analysis document, a rendered
chart (the chart library itself is an external collaborator — for the
pie chart the slice data it receives is recorded), or raw text.  The
model assumes matplotlib is importable (`HAS_MATPLOTLIB = True`); the
degraded mode without it is outside the verified claims.
-/

inductive FileData where
  | analysisDoc (a : Analysis)
  | barChart (labels : List String) (counts : List Nat)
  | pieChart (labels : List String) (sizes : List Nat)
  | lineChart (labels : List String) (counts : List Nat)
  | htmlReport (totalCount : Nat)
  | rawText (s : String)
deriving DecidableEq

structure FS where
  dirs : List String
  files : List (String × FileData)
deriving DecidableEq

/-- First binding of a path in the file map. -/
def getFile (fs : FS) (p : String) : Option FileData :=
  match fs.files.find? (fun e => e.1 == p) with
  | some e => some e.2
  | none => none

/-- Overwriting write: an existing path is rebound in place, a new path
is appended. -/
def setFile : List (String × FileData) → String → FileData → List (String × FileData)
  | [], p, d => [(p, d)]
  | (p', d') :: rest, p, d =>
    if p' = p then (p', d) :: rest else (p', d') :: setFile rest p d

def FS.write (fs : FS) (p : String) (d : FileData) : FS :=
  { fs with files := setFile fs.files p d }

/-- Embeds `os.path.exists`: true for directories and files alike. -/
def FS.existsPath (fs : FS) (p : String) : Bool :=
  fs.dirs.contains p || (fs.files.map Prod.fst).contains p

/-- Embeds `os.path.join(dir, name)` for a directory without a trailing
separator. -/
def pathJoin (d f : String) : String := d ++ "/" ++ f

/-- Exceptions raised on the renderer paths modelled here. -/
inductive PyError where
  | fileNotFound
  | jsonDecode
deriving DecidableEq

/-- Embeds `ResultsVisualizer.__init__` (lines 26-45): the output
directory is created first when absent, then the analysis file is opened
and parsed.  A missing file raises `FileNotFoundError`, unparsable
content raises `json.JSONDecodeError`. -/
def visualizerInit (fs : FS) (analysisFile outputDir : String) :
    FS × Except PyError Analysis :=
  let fs1 := if fs.existsPath outputDir then fs else { fs with dirs := fs.dirs ++ [outputDir] }
  match getFile fs1 analysisFile with
  | none => (fs1, .error .fileNotFound)
  | some (.analysisDoc a) => (fs1, .ok a)
  | some _ => (fs1, .error .jsonDecode)

/-- Embeds `visualize_languages` (lines 47-78): top 10 languages by
count, with `"Unknown"` substituted for a falsy key. -/
def visualizeLanguages (fs : FS) (a : Analysis) (outputDir : String) : FS × String :=
  let sortedLangs := (a.languages.mergeSort countDescLe).take 10
  let langs := sortedLangs.map (fun p => if p.1 = "" then "Unknown" else p.1)
  let counts := sortedLangs.map Prod.snd
  let path := pathJoin outputDir "languages.png"
  (fs.write path (.barChart langs counts), path)

/-- Embeds `visualize_topics` (lines 80-111): top 15 topics by count. -/
def visualizeTopics (fs : FS) (a : Analysis) (outputDir : String) : FS × String :=
  let sortedTopics := (a.topics.mergeSort countDescLe).take 15
  let path := pathJoin outputDir "topics.png"
  (fs.write path (.barChart (sortedTopics.map Prod.fst) (sortedTopics.map Prod.snd)), path)

/-- The filtering loop of `visualize_stars_distribution` (lines 122-132):
zip the keys and values of `stars_distribution` and keep the entries with
a strictly positive count, in order. -/
def pieFilter : List (String × Nat) → List String × List Nat
  | [] => ([], [])
  | (l, s) :: rest =>
    let r := pieFilter rest
    if s > 0 then (l :: r.1, s :: r.2) else r

/-- Embeds `visualize_stars_distribution` (lines 113-147): the pie chart
receives the filtered labels and sizes; the rendering library annotates
each slice with its share of the sum of the sizes it receives. -/
def visualizeStarsDistribution (fs : FS) (a : Analysis) (outputDir : String) :
    FS × String :=
  let f := pieFilter a.stars_distribution
  let path := pathJoin outputDir "stars_distribution.png"
  (fs.write path (.pieChart f.1 f.2), path)

/-- Comparator of `sorted(dates.keys())` (line 159): Python string
order. -/
def pyStrLeB (a b : String) : Bool := pyStrLt a b || a == b

/-- Embeds `visualize_creation_timeline` (lines 149-181): years sorted in
Python string order with their counts. -/
def visualizeCreationTimeline (fs : FS) (a : Analysis) (outputDir : String) :
    FS × String :=
  let years := (a.created_dates.map Prod.fst).mergeSort pyStrLeB
  let counts := years.map (fun y => getCount a.created_dates y)
  let path := pathJoin outputDir "creation_timeline.png"
  (fs.write path (.lineChart years counts), path)

/-- Embeds `create_all_visualizations` (lines 183-197). -/
def createAllVisualizations (fs : FS) (a : Analysis) (outputDir : String) :
    FS × List String :=
  let r1 := visualizeLanguages fs a outputDir
  let r2 := visualizeTopics r1.1 a outputDir
  let r3 := visualizeStarsDistribution r2.1 a outputDir
  let r4 := visualizeCreationTimeline r3.1 a outputDir
  (r4.1, [r1.2, r2.2, r3.2, r4.2])

/-- Embeds `create_html_report` (lines 199-307): renders all charts, then
writes the HTML document (recorded by the total count it displays; the
current-date stamp is a real-time effect outside the model). -/
def createHtmlReport (fs : FS) (a : Analysis) (outputDir reportFile : String) :
    FS × String :=
  let r := createAllVisualizations fs a outputDir
  let path := pathJoin outputDir reportFile
  ((r.1).write path (.htmlReport a.total_count), path)

/-- Embeds `main` of `visualize_results.py` (lines 315-347) with
matplotlib available: construct the visualizer and render, catching
`FileNotFoundError` and `json.JSONDecodeError` with console messages.
Returns the final file system and the console output. -/
def visualizeMain (fs : FS) (analysisFile outputDir reportFile : String) :
    FS × List String :=
  match visualizerInit fs analysisFile outputDir with
  | (fs1, .error .fileNotFound) =>
    (fs1, ["ERROR: Analysis file \x27" ++ analysisFile ++ "\x27 not found.",
           "Run the search tool with --analyze flag first."])
  | (fs1, .error .jsonDecode) =>
    (fs1, ["ERROR: \x27" ++ analysisFile ++ "\x27 is not a valid JSON file."])
  | (fs1, .ok a) =>
    let r := createHtmlReport fs1 a outputDir reportFile
    let v := createAllVisualizations r.1 a outputDir
    (v.1, ["Report generated at: " ++ r.2, "Individual visualizations:"]
            ++ v.2.map (fun p => "  - " ++ p))

/-! ## Concrete example inputs used by scenarios and witnesses -/

/-- A record with the given id and star count and every optional field
absent. -/
def mkRepo (i stars : Nat) : Repo :=
  { id := i
    name := "r"
    full_name := "o/r"
    html_url := "u"
    description := none
    created_at := none
    updated_at := "t"
    language := none
    stargazers_count := some stars
    forks_count := 0
    topics := none }

/-- A record with a given language. -/
def repoLang (i : Nat) (lang : Option String) : Repo :=
  { mkRepo i 0 with language := lang }

/-- A record with a given creation timestamp. -/
def repoYear (i : Nat) (ts : String) : Repo :=
  { mkRepo i 0 with created_at := some ts }

/-- Scenario 1 of the specification: three records with star counts 5,
50 and 2000. -/
def scenarioStars : List Repo := [mkRepo 1 5, mkRepo 2 50, mkRepo 3 2000]

/-- Scenario 2 of the specification: identifier 42 appears at positions
1 and 5 of the concatenated results with different field values. -/
def scenarioDup : List Repo :=
  [{ mkRepo 42 1 with name := "first" }, mkRepo 2 0, mkRepo 3 0, mkRepo 4 0,
   { mkRepo 42 9 with name := "fifth" }]

/-- Scenario 3 of the specification: one record with a null language
next to one with a language. -/
def scenarioNullLang : List Repo := [repoLang 1 none, repoLang 2 (some "Python")]

/-- Two records whose languages tie with one occurrence each. -/
def scenarioLangs : List Repo := [repoLang 1 (some "Python"), repoLang 2 (some "C")]

/-- Two records created in years 999 and 1000: CPython `%Y` parses the
four digit field `"0999"` to the year 999, whose `str()` is `"999"`. -/
def scenarioYears : List Repo :=
  [repoYear 1 "0999-01-01T00:00:00Z", repoYear 2 "1000-01-01T00:00:00Z"]

/-- Numeric year denoted by a `created_dates` key (a decimal digit
string). -/
def keyYear (s : String) : Nat :=
  s.data.foldl (fun acc c => acc * 10 + charDigit c) 0

/-- An empty file system. -/
def fsEmpty : FS := { dirs := [], files := [] }

/-- Scenario 4 of the specification: an aggregate whose `"0-10"` star
bucket is zero. -/
def scenarioAnalysis : Analysis :=
  { total_count := 5
    languages := []
    topics := []
    created_dates := []
    stars_distribution :=
      [("0-10", 0), ("11-50", 3), ("51-100", 0), ("101-500", 1), ("501-1000", 0), ("1001+", 1)] }

/-- An oracle whose every response is a 403 failure. -/
def failingOracle : String → HttpResponse :=
  fun _ => { status := 403, text := "rate limit exceeded", items := none }

/-- A successful response with an empty items list. -/
def okEmpty : HttpResponse := { status := 200, text := "", items := some [] }

/-! ## Helper lemmas: the aggregation loop field by field -/

/-- Language dict update performed for one record (lines 142-144). -/
def langUpd (m : List (String × Nat)) (r : Repo) : List (String × Nat) :=
  match r.language with
  | some l => if l ≠ "" then bump m l else m
  | none => m

/-- Topic dict update performed for one record (lines 147-149). -/
def topicsUpd (m : List (String × Nat)) (r : Repo) : List (String × Nat) :=
  (r.topics.getD []).foldl bump m

/-- Creation year dict update performed for one record (lines 152-154). -/
def createdUpd (m : List (String × Nat)) (r : Repo) : List (String × Nat) :=
  match r.created_at with
  | some s => bump m (toString (parseYear s))
  | none => m

/-- Star bucket update performed for one record (lines 157-169). -/
def starsUpd (m : List (String × Nat)) (r : Repo) : List (String × Nat) :=
  bump m (starsKey (r.stargazers_count.getD 0))

theorem analyzeStep_total (a : Analysis) (r : Repo) :
    (analyzeStep a r).total_count = a.total_count := by
  cases hl : r.language <;> cases hc : r.created_at <;>
    simp [analyzeStep, hl, hc, apply_ite (Analysis.total_count)]

theorem analyzeStep_languages (a : Analysis) (r : Repo) :
    (analyzeStep a r).languages = langUpd a.languages r := by
  cases hl : r.language <;> cases hc : r.created_at <;>
    simp [analyzeStep, langUpd, hl, hc, apply_ite (Analysis.languages)]

theorem analyzeStep_topics (a : Analysis) (r : Repo) :
    (analyzeStep a r).topics = topicsUpd a.topics r := by
  cases hl : r.language <;> cases hc : r.created_at <;>
    simp [analyzeStep, topicsUpd, hl, hc, apply_ite (Analysis.topics)]

theorem analyzeStep_created (a : Analysis) (r : Repo) :
    (analyzeStep a r).created_dates = createdUpd a.created_dates r := by
  cases hl : r.language <;> cases hc : r.created_at <;>
    simp [analyzeStep, createdUpd, hl, hc, apply_ite (Analysis.created_dates)]

theorem analyzeStep_stars (a : Analysis) (r : Repo) :
    (analyzeStep a r).stars_distribution = starsUpd a.stars_distribution r := by
  cases hl : r.language <;> cases hc : r.created_at <;>
    simp [analyzeStep, starsUpd, hl, hc, apply_ite (Analysis.stars_distribution)]

theorem foldl_step_total : ∀ (items : List Repo) (a : Analysis),
    (items.foldl analyzeStep a).total_count = a.total_count
  | [], _ => rfl
  | r :: rest, a => by
    rw [List.foldl_cons, foldl_step_total rest, analyzeStep_total]

theorem foldl_step_languages : ∀ (items : List Repo) (a : Analysis),
    (items.foldl analyzeStep a).languages = items.foldl langUpd a.languages
  | [], _ => rfl
  | r :: rest, a => by
    rw [List.foldl_cons, List.foldl_cons, foldl_step_languages rest, analyzeStep_languages]

theorem foldl_step_topics : ∀ (items : List Repo) (a : Analysis),
    (items.foldl analyzeStep a).topics = items.foldl topicsUpd a.topics
  | [], _ => rfl
  | r :: rest, a => by
    rw [List.foldl_cons, List.foldl_cons, foldl_step_topics rest, analyzeStep_topics]

theorem foldl_step_created : ∀ (items : List Repo) (a : Analysis),
    (items.foldl analyzeStep a).created_dates = items.foldl createdUpd a.created_dates
  | [], _ => rfl
  | r :: rest, a => by
    rw [List.foldl_cons, List.foldl_cons, foldl_step_created rest, analyzeStep_created]

theorem foldl_step_stars : ∀ (items : List Repo) (a : Analysis),
    (items.foldl analyzeStep a).stars_distribution = items.foldl starsUpd a.stars_distribution
  | [], _ => rfl
  | r :: rest, a => by
    rw [List.foldl_cons, List.foldl_cons, foldl_step_stars rest, analyzeStep_stars]

/-! ## Helper lemmas: `bump` arithmetic -/

theorem getCount_bump (m : List (String × Nat)) (k' k : String) :
    getCount (bump m k') k = if k' = k then getCount m k + 1 else getCount m k := by
  induction m with
  | nil => by_cases h : k' = k <;> simp [bump, getCount, h]
  | cons p rest ih =>
    obtain ⟨a, v⟩ := p
    by_cases h1 : a = k'
    · subst h1
      by_cases h2 : a = k <;> simp [bump, getCount, h2]
    · by_cases h2 : a = k
      · subst h2
        have h3 : ¬ k' = a := fun h => h1 h.symm
        simp [bump, getCount, h1, h3]
      · simp [bump, getCount, h1, h2, ih]

theorem sum_bump (m : List (String × Nat)) (k : String) :
    ((bump m k).map Prod.snd).sum = (m.map Prod.snd).sum + 1 := by
  induction m with
  | nil => simp [bump]
  | cons p rest ih =>
    obtain ⟨a, v⟩ := p
    by_cases h : a = k <;> simp [bump, h, ih] <;> omega

theorem keys_bump (m : List (String × Nat)) (k : String) :
    (bump m k).map Prod.fst =
      if k ∈ m.map Prod.fst then m.map Prod.fst else m.map Prod.fst ++ [k] := by
  induction m with
  | nil => simp [bump]
  | cons p rest ih =>
    obtain ⟨a, v⟩ := p
    by_cases h : a = k
    · simp [bump, h]
    · have h2 : ¬ k = a := fun hk => h hk.symm
      by_cases hm : k ∈ rest.map Prod.fst <;> simp [bump, h, h2, hm, ih]

/-! ## Helper lemmas: star buckets and sums -/

theorem starsKey_mem (s : Nat) : starsKey s ∈ sixKeys := by
  unfold starsKey
  split_ifs <;> decide

theorem sixKeys_nodup : sixKeys.Nodup := by decide

theorem getCount_starsInit (k : String) : getCount starsInit k = 0 := by
  simp only [starsInit, getCount]
  split_ifs <;> rfl

theorem starsFold_getCount : ∀ (items : List Repo) (m : List (String × Nat)) (k : String),
    getCount (items.foldl starsUpd m) k
      = getCount m k + items.countP (fun r => starsKey (r.stargazers_count.getD 0) == k)
  | [], _, _ => by simp
  | r :: rest, m, k => by
    rw [List.foldl_cons, starsFold_getCount rest, List.countP_cons]
    unfold starsUpd
    rw [getCount_bump]
    by_cases h : starsKey (r.stargazers_count.getD 0) = k <;> simp [h] <;> omega

theorem starsFold_keys : ∀ (items : List Repo) (m : List (String × Nat)),
    m.map Prod.fst = sixKeys → (items.foldl starsUpd m).map Prod.fst = sixKeys
  | [], _, h => h
  | r :: rest, m, h => by
    rw [List.foldl_cons]
    refine starsFold_keys rest _ ?_
    unfold starsUpd
    rw [keys_bump, h, if_pos (starsKey_mem _)]

theorem assoc_eq_keys_map : ∀ (m : List (String × Nat)), (m.map Prod.fst).Nodup →
    m = (m.map Prod.fst).map (fun k => (k, getCount m k))
  | [], _ => rfl
  | (a, v) :: rest, h => by
    rw [List.map_cons, List.map_cons]
    have h1 : a ∉ rest.map Prod.fst := (List.nodup_cons.mp h).1
    have h2 : (rest.map Prod.fst).Nodup := (List.nodup_cons.mp h).2
    have hv : getCount ((a, v) :: rest) a = v := by simp [getCount]
    rw [hv]
    congr 1
    have step : (rest.map Prod.fst).map (fun k => (k, getCount ((a, v) :: rest) k))
        = (rest.map Prod.fst).map (fun k => (k, getCount rest k)) := by
      refine List.map_congr_left ?_
      intro k hk
      have hka : ¬ a = k := fun he => h1 (he ▸ hk)
      simp [getCount, hka]
    rw [step]
    exact assoc_eq_keys_map rest h2

theorem starsFold_sum : ∀ (items : List Repo) (m : List (String × Nat)),
    ((items.foldl starsUpd m).map Prod.snd).sum = (m.map Prod.snd).sum + items.length
  | [], _ => rfl
  | r :: rest, m => by
    rw [List.foldl_cons, starsFold_sum rest]
    unfold starsUpd
    rw [sum_bump]
    simp
    omega

theorem langUpd_sum (m : List (String × Nat)) (r : Repo) :
    ((langUpd m r).map Prod.snd).sum
      = (m.map Prod.snd).sum + (if truthyLang r then 1 else 0) := by
  unfold langUpd truthyLang
  cases r.language with
  | none => simp
  | some l =>
    by_cases h : l = "" <;> simp [h, sum_bump]

theorem langFold_sum : ∀ (items : List Repo) (m : List (String × Nat)),
    ((items.foldl langUpd m).map Prod.snd).sum
      = (m.map Prod.snd).sum + items.countP truthyLang
  | [], _ => rfl
  | r :: rest, m => by
    rw [List.foldl_cons, langFold_sum rest, langUpd_sum, List.countP_cons]
    omega

theorem createdUpd_sum (m : List (String × Nat)) (r : Repo) :
    ((createdUpd m r).map Prod.snd).sum
      = (m.map Prod.snd).sum + (if r.created_at.isSome then 1 else 0) := by
  unfold createdUpd
  cases r.created_at with
  | none => simp
  | some s => simp [sum_bump]

theorem createdFold_sum : ∀ (items : List Repo) (m : List (String × Nat)),
    ((items.foldl createdUpd m).map Prod.snd).sum
      = (m.map Prod.snd).sum + items.countP (fun r => r.created_at.isSome)
  | [], _ => rfl
  | r :: rest, m => by
    rw [List.foldl_cons, createdFold_sum rest, createdUpd_sum, List.countP_cons]
    by_cases h : r.created_at.isSome <;> simp [h] <;> omega

theorem mergeSort_snd_sum (l : List (String × Nat)) (le : (String × Nat) → (String × Nat) → Bool) :
    (((l.mergeSort le).map Prod.snd)).sum = (l.map Prod.snd).sum :=
  ((l.mergeSort_perm le).map Prod.snd).sum_eq

/-! ## C2: star bucket completeness -/

/-- C2.  Star bucket completeness: for every collection, the
`stars_distribution` of `analyze_results` is exactly the six fixed keys
in order, each paired with the number of records whose star count falls
in that bucket under the closed upper bounds of `starsKey`; the bucket
counts sum to `total_count`; every star count lands in one of the six
buckets.  In particular, for three records with star counts 5, 50, 2000
the distribution is 0-10:1, 11-50:1, 1001+:1, the rest 0, with
`total_count` 3. -/
theorem stars_bucket_classification :
    (∀ items : List Repo,
      (analyzeResults items).stars_distribution
        = sixKeys.map (fun k => (k, items.countP (fun r => starsKey (r.stargazers_count.getD 0) == k)))
      ∧ ((analyzeResults items).stars_distribution.map Prod.snd).sum
          = (analyzeResults items).total_count
      ∧ (∀ s : Nat, starsKey s ∈ sixKeys))
    ∧ (analyzeResults scenarioStars).stars_distribution
        = [("0-10", 1), ("11-50", 1), ("51-100", 0), ("101-500", 0), ("501-1000", 0), ("1001+", 1)]
    ∧ (analyzeResults scenarioStars).total_count = 3 := by
  refine ⟨fun items => ?_, by decide, by decide⟩
  have hproj : (analyzeResults items).stars_distribution = items.foldl starsUpd starsInit := by
    show (items.foldl analyzeStep _).stars_distribution = _
    rw [foldl_step_stars]
  have htot : (analyzeResults items).total_count = items.length := by
    show (items.foldl analyzeStep _).total_count = _
    rw [foldl_step_total]
  have hkeys : (items.foldl starsUpd starsInit).map Prod.fst = sixKeys :=
    starsFold_keys items starsInit rfl
  refine ⟨?_, ?_, starsKey_mem⟩
  · rw [hproj]
    have hnd : ((items.foldl starsUpd starsInit).map Prod.fst).Nodup := by
      rw [hkeys]; exact sixKeys_nodup
    have hchar := assoc_eq_keys_map _ hnd
    rw [hkeys] at hchar
    conv_lhs => rw [hchar]
    refine List.map_congr_left ?_
    intro k _
    rw [starsFold_getCount, getCount_starsInit, Nat.zero_add]
  · rw [hproj, htot, starsFold_sum]
    simp [starsInit]

/-! ## C3: null language exclusion and the sum invariants -/

/-- C3.  A record with a null (or omitted) language contributes nothing
to the `languages` mapping (its truthiness test is false) while it is
still counted in `total_count` and in a star bucket: the language counts
sum to the number of records passing the truthiness test, the creation
year counts sum to the number of records carrying a timestamp, both are
at most `total_count`, and the star bucket counts sum to exactly
`total_count`, which is the collection size. -/
theorem null_language_exclusion (items : List Repo) :
    ((analyzeResults items).languages.map Prod.snd).sum = items.countP truthyLang
    ∧ ((analyzeResults items).languages.map Prod.snd).sum ≤ (analyzeResults items).total_count
    ∧ ((analyzeResults items).created_dates.map Prod.snd).sum
        = items.countP (fun r => r.created_at.isSome)
    ∧ ((analyzeResults items).created_dates.map Prod.snd).sum ≤ (analyzeResults items).total_count
    ∧ ((analyzeResults items).stars_distribution.map Prod.snd).sum
        = (analyzeResults items).total_count
    ∧ (analyzeResults items).total_count = items.length
    ∧ (∀ r : Repo, r.language = none → truthyLang r = false) := by
  have htot : (analyzeResults items).total_count = items.length := by
    show (items.foldl analyzeStep _).total_count = _
    rw [foldl_step_total]
  have hlang : (analyzeResults items).languages
      = ((analyzeLoop items).languages).mergeSort countDescLe := rfl
  have hloopl : (analyzeLoop items).languages = items.foldl langUpd [] := by
    show (items.foldl analyzeStep _).languages = _
    rw [foldl_step_languages]
  have hlsum : ((analyzeResults items).languages.map Prod.snd).sum = items.countP truthyLang := by
    rw [hlang, mergeSort_snd_sum, hloopl, langFold_sum]
    simp
  have hcre : (analyzeResults items).created_dates
      = ((analyzeLoop items).created_dates).mergeSort createdLe := rfl
  have hloopc : (analyzeLoop items).created_dates = items.foldl createdUpd [] := by
    show (items.foldl analyzeStep _).created_dates = _
    rw [foldl_step_created]
  have hcsum : ((analyzeResults items).created_dates.map Prod.snd).sum
      = items.countP (fun r => r.created_at.isSome) := by
    rw [hcre, mergeSort_snd_sum, hloopc, createdFold_sum]
    simp
  have hproj : (analyzeResults items).stars_distribution = items.foldl starsUpd starsInit := by
    show (items.foldl analyzeStep _).stars_distribution = _
    rw [foldl_step_stars]
  refine ⟨hlsum, ?_, hcsum, ?_, ?_, htot, ?_⟩
  · rw [hlsum, htot]
    exact List.countP_le_length _
  · rw [hcsum, htot]
    exact List.countP_le_length _
  · rw [hproj, htot, starsFold_sum]
    simp [starsInit]
  · intro r h
    simp [truthyLang, h]

/-- Witness for C3 at Scenario 3: one null-language record next to one
Python record. -/
theorem null_language_exclusion_witness :
    ((analyzeResults scenarioNullLang).languages.map Prod.snd).sum
        = scenarioNullLang.countP truthyLang
    ∧ (analyzeResults scenarioNullLang).total_count = scenarioNullLang.length
    ∧ truthyLang (repoLang 1 none) = false :=
  ⟨(null_language_exclusion scenarioNullLang).1,
   (null_language_exclusion scenarioNullLang).2.2.2.2.2.1,
   (null_language_exclusion scenarioNullLang).2.2.2.2.2.2 (repoLang 1 none) rfl⟩

/-! ## Helper lemmas: deduplication -/

theorem contains_false_iff (seen : List Nat) (i : Nat) :
    seen.contains i = false ↔ i ∉ seen := by
  simp [List.contains]

theorem dedupeNew_sublist : ∀ (l : List Repo) (seen : List Nat),
    (dedupeNew l seen).Sublist l
  | [], _ => List.Sublist.refl _
  | r :: rest, seen => by
    unfold dedupeNew
    split
    · exact (dedupeNew_sublist rest seen).cons r
    · exact (dedupeNew_sublist rest (seen ++ [r.id])).cons₂ r

theorem dedupeNew_not_seen : ∀ (l : List Repo) (seen : List Nat) (r : Repo),
    r ∈ dedupeNew l seen → r.id ∉ seen
  | [], _, _ => by simp [dedupeNew]
  | x :: rest, seen, r => by
    unfold dedupeNew
    split
    · exact dedupeNew_not_seen rest seen r
    · intro hr
      rcases List.mem_cons.mp hr with h | h
      · subst h
        rename_i hc
        exact (contains_false_iff seen r.id).mp (Bool.not_eq_true _ ▸ hc)
      · intro hmem
        exact dedupeNew_not_seen rest (seen ++ [x.id]) r h (List.mem_append_left _ hmem)

theorem dedupeNew_ids_nodup : ∀ (l : List Repo) (seen : List Nat),
    ((dedupeNew l seen).map Repo.id).Nodup
  | [], _ => List.nodup_nil
  | x :: rest, seen => by
    unfold dedupeNew
    split
    · exact dedupeNew_ids_nodup rest seen
    · rw [List.map_cons]
      refine List.nodup_cons.mpr ⟨?_, dedupeNew_ids_nodup rest (seen ++ [x.id])⟩
      intro hmem
      obtain ⟨r, hr, hid⟩ := List.mem_map.mp hmem
      exact dedupeNew_not_seen rest (seen ++ [x.id]) r hr
        (hid ▸ List.mem_append_right _ (List.mem_singleton.mpr rfl))

theorem dedupeNew_mem_ids : ∀ (l : List Repo) (seen : List Nat) (i : Nat),
    i ∈ (dedupeNew l seen).map Repo.id ↔ (i ∈ l.map Repo.id ∧ i ∉ seen)
  | [], _, i => by simp [dedupeNew]
  | x :: rest, seen, i => by
    unfold dedupeNew
    split
    · rename_i hc
      have hx : x.id ∈ seen := by
        have := List.contains_iff_exists_mem_beq.mp hc
        obtain ⟨a, ha, hba⟩ := this
        exact (eq_of_beq hba) ▸ ha
      rw [dedupeNew_mem_ids rest seen i, List.map_cons]
      constructor
      · rintro ⟨hmem, hns⟩
        exact ⟨List.mem_cons_of_mem _ hmem, hns⟩
      · rintro ⟨hmem, hns⟩
        rcases List.mem_cons.mp hmem with h | h
        · exact absurd (h ▸ hx) hns
        · exact ⟨h, hns⟩
    · rename_i hc
      have hx : x.id ∉ seen :=
        (contains_false_iff seen x.id).mp (Bool.not_eq_true _ ▸ hc)
      simp only [List.map_cons, List.mem_cons]
      rw [dedupeNew_mem_ids rest (seen ++ [x.id]) i]
      constructor
      · rintro (h | ⟨hmem, hns⟩)
        · exact ⟨Or.inl h, h ▸ hx⟩
        · exact ⟨Or.inr hmem, fun hs => hns (List.mem_append_left _ hs)⟩
      · rintro ⟨h | h, hns⟩
        · exact Or.inl h
        · by_cases hix : i = x.id
          · exact Or.inl hix
          · refine Or.inr ⟨h, fun hs => ?_⟩
            rcases List.mem_append.mp hs with h2 | h2
            · exact hns h2
            · exact hix (List.mem_singleton.mp h2)

theorem dedupeNew_find : ∀ (l : List Repo) (seen : List Nat) (r : Repo),
    r ∈ dedupeNew l seen → l.find? (fun s => s.id == r.id) = some r
  | [], _, _ => by simp [dedupeNew]
  | x :: rest, seen, r => by
    unfold dedupeNew
    split
    · rename_i hc
      intro hr
      have hx : x.id ∈ seen := by
        obtain ⟨a, ha, hba⟩ := List.contains_iff_exists_mem_beq.mp hc
        exact (eq_of_beq hba) ▸ ha
      have hrs : r.id ∉ seen := dedupeNew_not_seen rest seen r hr
      have hne : (x.id == r.id) = false := by
        rw [beq_eq_false_iff_ne]
        intro he
        exact hrs (he ▸ hx)
      rw [List.find?_cons]
      simp only [hne]
      exact dedupeNew_find rest seen r hr
    · intro hr
      rcases List.mem_cons.mp hr with h | h
      · subst h
        rw [List.find?_cons]
        simp
      · have hrs : r.id ∉ seen ++ [x.id] := dedupeNew_not_seen rest (seen ++ [x.id]) r h
        have hne : (x.id == r.id) = false := by
          rw [beq_eq_false_iff_ne]
          intro he
          exact hrs (he ▸ List.mem_append_right _ (List.mem_singleton.mpr rfl))
        rw [List.find?_cons]
        simp only [hne]
        exact dedupeNew_find rest (seen ++ [x.id]) r h

theorem dedupeAux_spec : ∀ (l : List Repo) (acc : List (Nat × Repo)),
    (dedupeAux l acc).map Prod.snd = acc.map Prod.snd ++ dedupeNew l (acc.map Prod.fst)
  | [], acc => by simp [dedupeAux, dedupeNew]
  | r :: rest, acc => by
    unfold dedupeAux dedupeNew
    split
    · rename_i hc
      rw [dedupeAux_spec rest acc]
    · rename_i hc
      rw [dedupeAux_spec rest (acc ++ [(r.id, r)])]
      simp

theorem dedupeById_eq (l : List Repo) : dedupeById l = dedupeNew l [] := by
  unfold dedupeById
  rw [dedupeAux_spec]
  rfl

/-! ## C1: first-occurrence deduplication -/

/-- C1.  Deduplication is first-occurrence and order-preserving: the
deduplicated ids are duplicate-free, the set of ids is exactly the set of
input ids, every retained record is the first record of the input with
its id, and the output is a sublist of the input (so the relative input
order of the retained first occurrences is preserved). -/
theorem dedupe_first_occurrence (l : List Repo) :
    ((dedupeById l).map Repo.id).Nodup
    ∧ (∀ i : Nat, i ∈ (dedupeById l).map Repo.id ↔ i ∈ l.map Repo.id)
    ∧ (∀ r ∈ dedupeById l, l.find? (fun s => s.id == r.id) = some r)
    ∧ (dedupeById l).Sublist l := by
  rw [dedupeById_eq]
  refine ⟨dedupeNew_ids_nodup l [], fun i => ?_,
    fun r hr => dedupeNew_find l [] r hr, dedupeNew_sublist l []⟩
  rw [dedupeNew_mem_ids]
  simp

/-- Witness for C1 at Scenario 2: identifier 42 appears at positions 1
and 5; the retained record is the position-1 version. -/
theorem dedupe_first_occurrence_witness :
    scenarioDup.find? (fun s => s.id == 42) = some { mkRepo 42 1 with name := "first" }
    ∧ (dedupeById scenarioDup).Sublist scenarioDup :=
  ⟨by
    have h := (dedupe_first_occurrence scenarioDup).2.2.1
      { mkRepo 42 1 with name := "first" } (by decide)
    simpa using h,
   (dedupe_first_occurrence scenarioDup).2.2.2⟩

/-! ## Helper lemmas: the sort comparators -/

theorem pyCharListLt_cons (a b : Char) (as bs : List Char) :
    pyCharListLt (a :: as) (b :: bs) = true ↔ (a < b ∨ (a = b ∧ pyCharListLt as bs = true)) := by
  by_cases h1 : a < b
  · simp [pyCharListLt, h1]
  · by_cases h2 : a = b <;> simp [pyCharListLt, h1, h2]

theorem pyCharListLt_trans (a : List Char) : ∀ (b c : List Char),
    pyCharListLt a b = true → pyCharListLt b c = true → pyCharListLt a c = true := by
  induction a with
  | nil =>
    intro b c hab hbc
    cases b with
    | nil => simp [pyCharListLt] at hab
    | cons y bs =>
      cases c with
      | nil => simp [pyCharListLt] at hbc
      | cons z cs => simp [pyCharListLt]
  | cons x as ih =>
    intro b c hab hbc
    cases b with
    | nil => simp [pyCharListLt] at hab
    | cons y bs =>
      cases c with
      | nil => simp [pyCharListLt] at hbc
      | cons z cs =>
        rw [pyCharListLt_cons] at hab hbc ⊢
        rcases hab with h1 | ⟨h1, h1r⟩
        · rcases hbc with h2 | ⟨h2, h2r⟩
          · exact Or.inl (lt_trans h1 h2)
          · exact Or.inl (h2 ▸ h1)
        · rcases hbc with h2 | ⟨h2, h2r⟩
          · exact Or.inl (h1 ▸ h2)
          · exact Or.inr ⟨h1.trans h2, ih bs cs h1r h2r⟩

theorem pyCharListLt_trichotomy (a : List Char) : ∀ (b : List Char),
    pyCharListLt a b = true ∨ a = b ∨ pyCharListLt b a = true := by
  induction a with
  | nil =>
    intro b
    cases b with
    | nil => exact Or.inr (Or.inl rfl)
    | cons y bs => exact Or.inl (by simp [pyCharListLt])
  | cons x as ih =>
    intro b
    cases b with
    | nil => exact Or.inr (Or.inr (by simp [pyCharListLt]))
    | cons y bs =>
      rcases lt_trichotomy x y with h | h | h
      · exact Or.inl ((pyCharListLt_cons x y as bs).mpr (Or.inl h))
      · subst h
        rcases ih bs with h2 | h2 | h2
        · exact Or.inl ((pyCharListLt_cons x x as bs).mpr (Or.inr ⟨rfl, h2⟩))
        · exact Or.inr (Or.inl (by rw [h2]))
        · exact Or.inr (Or.inr ((pyCharListLt_cons x x bs as).mpr (Or.inr ⟨rfl, h2⟩)))
      · exact Or.inr (Or.inr ((pyCharListLt_cons y x bs as).mpr (Or.inl h)))

theorem pyStrLt_trans (a b c : String) (hab : pyStrLt a b = true) (hbc : pyStrLt b c = true) :
    pyStrLt a c = true :=
  pyCharListLt_trans a.data b.data c.data hab hbc

theorem pyStrLt_trichotomy (a b : String) :
    pyStrLt a b = true ∨ a = b ∨ pyStrLt b a = true := by
  rcases pyCharListLt_trichotomy a.data b.data with h | h | h
  · exact Or.inl h
  · exact Or.inr (Or.inl (String.ext h))
  · exact Or.inr (Or.inr h)

theorem countDescLe_trans (x y z : String × Nat)
    (h1 : countDescLe x y) (h2 : countDescLe y z) : countDescLe x z := by
  simp only [countDescLe, decide_eq_true_eq] at h1 h2 ⊢
  omega

theorem countDescLe_total (x y : String × Nat) : countDescLe x y || countDescLe y x := by
  simp only [countDescLe, Bool.or_eq_true, decide_eq_true_eq]
  omega

theorem createdLe_iff (x y : String × Nat) :
    createdLe x y = true ↔ (pyStrLt x.1 y.1 = true ∨ (x.1 = y.1 ∧ x.2 ≤ y.2)) := by
  simp [createdLe]

theorem createdLe_trans (x y z : String × Nat)
    (h1 : createdLe x y) (h2 : createdLe y z) : createdLe x z := by
  rw [createdLe_iff] at h1 h2 ⊢
  rcases h1 with h1 | ⟨h1, h1n⟩
  · rcases h2 with h2 | ⟨h2, h2n⟩
    · exact Or.inl (pyStrLt_trans _ _ _ h1 h2)
    · exact Or.inl (h2 ▸ h1)
  · rcases h2 with h2 | ⟨h2, h2n⟩
    · exact Or.inl (h1 ▸ h2)
    · exact Or.inr ⟨h1.trans h2, h1n.trans h2n⟩

theorem createdLe_total (x y : String × Nat) : createdLe x y || createdLe y x := by
  rw [Bool.or_eq_true, createdLe_iff, createdLe_iff]
  rcases pyStrLt_trichotomy x.1 y.1 with h | h | h
  · exact Or.inl (Or.inl h)
  · rcases Nat.le_total x.2 y.2 with hn | hn
    · exact Or.inl (Or.inr ⟨h, hn⟩)
    · exact Or.inr (Or.inr ⟨h.symm, hn⟩)
  · exact Or.inr (Or.inl h)

/-! ## C4: iteration order of the sorted mappings -/

/-- C4 (amended).  The `languages` and `topics` mappings of
`analyze_results` are non-increasing in count when iterated in order,
with the stable tie break: entries with equal counts keep the relative
order they had in the unsorted mapping, which lists keys in order of
first appearance.  The `created_dates` keys are non-decreasing in the
Python string order actually used by `sorted` (numerically ascending
whenever all year keys have the same number of digits, e.g. all
four-digit years). -/
theorem aggregate_sort_order (items : List Repo) :
    (analyzeResults items).languages.Pairwise (fun x y => y.2 ≤ x.2)
    ∧ (analyzeResults items).topics.Pairwise (fun x y => y.2 ≤ x.2)
    ∧ ((analyzeResults items).created_dates.map Prod.fst).Pairwise
        (fun k1 k2 => pyStrLt k1 k2 = true ∨ k1 = k2)
    ∧ (∀ x y : String × Nat, x.2 = y.2 → [x, y].Sublist (analyzeLoop items).languages →
        [x, y].Sublist (analyzeResults items).languages)
    ∧ (∀ x y : String × Nat, x.2 = y.2 → [x, y].Sublist (analyzeLoop items).topics →
        [x, y].Sublist (analyzeResults items).topics) := by
  have htie : ∀ x y : String × Nat, x.2 = y.2 → countDescLe x y = true := by
    intro x y h
    simp [countDescLe, h]
  refine ⟨?_, ?_, ?_, ?_, ?_⟩
  · exact (List.sorted_mergeSort countDescLe_trans countDescLe_total
      (analyzeLoop items).languages).imp (fun h => by
        simpa [countDescLe] using h)
  · exact (List.sorted_mergeSort countDescLe_trans countDescLe_total
      (analyzeLoop items).topics).imp (fun h => by
        simpa [countDescLe] using h)
  · have hp := List.sorted_mergeSort createdLe_trans createdLe_total
      (analyzeLoop items).created_dates
    rw [List.pairwise_map]
    refine hp.imp ?_
    intro x y h
    rcases (createdLe_iff x y).mp h with h | ⟨h, _⟩
    · exact Or.inl h
    · exact Or.inr h
  · intro x y hxy hsub
    exact List.pair_sublist_mergeSort countDescLe_trans countDescLe_total (htie x y hxy) hsub
  · intro x y hxy hsub
    exact List.pair_sublist_mergeSort countDescLe_trans countDescLe_total (htie x y hxy) hsub

/-- Witness for C4 at a concrete tie: two languages with one occurrence
each stay in first-appearance order after the sort. -/
theorem aggregate_sort_order_witness :
    [("Python", 1), ("C", 1)].Sublist (analyzeResults scenarioLangs).languages := by
  have hl : (analyzeLoop scenarioLangs).languages = [("Python", 1), ("C", 1)] := by decide
  refine (aggregate_sort_order scenarioLangs).2.2.2.1 ("Python", 1) ("C", 1) rfl ?_
  rw [hl]

unseal List.merge List.mergeSort in
/-- C4 counterexample: the claim reads the `created_dates` iteration
order as ascending year, but the code sorts the keys as strings.  Two
records created in years 999 and 1000 produce keys `"999"` and `"1000"`;
string order puts `"1000"` first, so the year values descend. -/
theorem created_dates_year_order_counterexample :
    (analyzeResults scenarioYears).created_dates.map Prod.fst = ["1000", "999"]
    ∧ ¬ (((analyzeResults scenarioYears).created_dates.map (fun p => keyYear p.1)).Pairwise
          (fun y1 y2 => y1 ≤ y2)) := by
  have heval : (analyzeResults scenarioYears).created_dates = [("1000", 1), ("999", 1)] := by
    decide
  refine ⟨by rw [heval]; rfl, ?_⟩
  rw [heval]
  intro hp
  have h1 : keyYear "1000" ≤ keyYear "999" := by
    have := List.pairwise_cons.mp hp
    exact this.1 _ (by simp)
  have h2 : keyYear "1000" = 1000 := by decide
  have h3 : keyYear "999" = 999 := by decide
  rw [h2, h3] at h1
  omega

/-! ## Helper lemmas: the filename substitution -/

theorem containsJson_cons_false (c : Char) (l : List Char)
    (h : containsJson (c :: l) = false) :
    startsJson (c :: l) = false ∧ containsJson l = false := by
  have h2 : (startsJson (c :: l) || containsJson l) = false := h
  simpa using h2

theorem raux_step (c : Char) (l : List Char) (h : startsJson (c :: l) = false) :
    replaceJsonAux (c :: l) = c :: replaceJsonAux l := by
  conv_lhs => rw [replaceJsonAux.eq_def]
  split
  · rename_i heq
    rw [show startsJson (c :: l) = true from by rw [heq]; rfl] at h
    exact absurd h (by simp)
  · rename_i c2 rest2 hne heq
    injection heq with e1 e2
    subst e1
    subst e2
    rfl
  · rename_i heq
    exact absurd heq (by simp)

theorem replaceJsonAux_append (b : List Char) (h : containsJson b = false) :
    replaceJsonAux (b ++ ".json".data) = b ++ newJson := by
  induction b with
  | nil => decide
  | cons c b2 ih =>
    obtain ⟨hs, hc⟩ := containsJson_cons_false c b2 h
    have hs2 : startsJson (c :: (b2 ++ ".json".data)) = false := by
      rcases b2 with _ | ⟨x1, _ | ⟨x2, _ | ⟨x3, _ | ⟨x4, b3⟩⟩⟩⟩
      · rfl
      · rfl
      · rfl
      · rfl
      · exact hs
    rw [List.cons_append, raux_step _ _ hs2, ih hc, List.cons_append]

/-! ## C5: derivation of the statistics filename -/

/-- C5 counterexample.  The claim says the `_analysis` suffix is inserted
immediately before the extension and nowhere else; but the code performs
`str.replace(".json", "_analysis.json")`, which also rewrites an interior
`".json"`.  On the filename `"a.json.txt"` (extension `".txt"`) the code
rewrites the interior occurrence instead of touching the extension
position. -/
theorem analysis_filename_counterexample :
    replaceDotJson "a.json.txt" = "a_analysis.json.txt"
    ∧ replaceDotJson "a.json.txt" ≠ "a.json_analysis.txt" := by decide

/-- C5 (amended).  When `".json"` occurs in the output filename only as
its final extension, the statistics filename is the collection filename
with `"_analysis"` inserted immediately before that extension; in
general the code replaces every occurrence of `".json"` with
`"_analysis.json"`. -/
theorem analysis_filename_amended (b : String) (h : containsJson b.data = false) :
    replaceDotJson (b ++ ".json") = b ++ "_analysis.json" := by
  refine String.ext ?_
  show replaceJsonAux (b ++ ".json").data = (b ++ "_analysis.json").data
  rw [String.data_append, String.data_append, replaceJsonAux_append b.data h]
  rfl

/-- Witness for C5 (amended) at the default output filename of the
search tool. -/
theorem analysis_filename_amended_witness :
    replaceDotJson "llm_literature_repos.json" = "llm_literature_repos_analysis.json" := by
  have h := analysis_filename_amended "llm_literature_repos" (by decide)
  have h2 : "llm_literature_repos" ++ ".json" = "llm_literature_repos.json" := by decide
  have h3 : "llm_literature_repos" ++ "_analysis.json" = "llm_literature_repos_analysis.json" := by
    decide
  rw [h2, h3] at h
  exact h

/-! ## Helper lemmas: the renderer file system -/

theorem find_setFile : ∀ (files : List (String × FileData)) (p : String) (d : FileData),
    (setFile files p d).find? (fun e => e.1 == p) = some (p, d)
  | [], p, d => by simp [setFile]
  | (p2, d2) :: rest, p, d => by
    by_cases h : p2 = p
    · subst h
      simp [setFile]
    · have hb : (p2 == p) = false := by
        rw [beq_eq_false_iff_ne]
        exact h
      simp only [setFile, h, if_false]
      rw [List.find?_cons]
      simp only [hb]
      exact find_setFile rest p d

theorem getFile_write (fs : FS) (p : String) (d : FileData) :
    getFile (fs.write p d) p = some d := by
  unfold getFile FS.write
  rw [find_setFile]

theorem visualizerInit_none (fs : FS) (analysisFile outputDir : String)
    (h : getFile fs analysisFile = none) :
    visualizerInit fs analysisFile outputDir
      = (if fs.existsPath outputDir then fs else { fs with dirs := fs.dirs ++ [outputDir] },
         Except.error PyError.fileNotFound) := by
  have hfiles : ∀ fs2 : FS, fs2.files = fs.files → getFile fs2 analysisFile = none := by
    intro fs2 h2
    unfold getFile at h ⊢
    rw [h2]
    exact h
  by_cases he : fs.existsPath outputDir
  · simp only [visualizerInit, he, if_true, if_pos]
    rw [hfiles fs rfl]
  · simp only [visualizerInit, he, if_false, Bool.false_eq_true]
    rw [hfiles { fs with dirs := fs.dirs ++ [outputDir] } rfl]

/-! ## C10: the output directory is created before the failure -/

/-- C10.  The renderer constructor is not side-effect free on failure:
for a missing analysis file it returns `FileNotFoundError`, yet the
output directory exists in the post state (it was created before the
file was opened) while no file was touched. -/
theorem init_creates_dir_before_error (fs : FS) (analysisFile outputDir : String)
    (h : getFile fs analysisFile = none) :
    (visualizerInit fs analysisFile outputDir).2 = Except.error PyError.fileNotFound
    ∧ (visualizerInit fs analysisFile outputDir).1.existsPath outputDir = true
    ∧ (visualizerInit fs analysisFile outputDir).1.files = fs.files := by
  rw [visualizerInit_none fs analysisFile outputDir h]
  refine ⟨rfl, ?_, ?_⟩
  · by_cases he : fs.existsPath outputDir
    · simpa [he] using he
    · simp only [he, if_false, Bool.false_eq_true]
      simp [FS.existsPath, List.contains]
  · by_cases he : fs.existsPath outputDir <;> simp [he]

/-- Witness for C10 on the empty file system. -/
theorem init_creates_dir_before_error_witness :
    (visualizerInit fsEmpty "llm_literature_repos_analysis.json" "visualizations").2
        = Except.error PyError.fileNotFound
    ∧ (visualizerInit fsEmpty "llm_literature_repos_analysis.json" "visualizations").1.existsPath
        "visualizations" = true :=
  ⟨(init_creates_dir_before_error fsEmpty _ _ (by decide)).1,
   (init_creates_dir_before_error fsEmpty _ _ (by decide)).2.1⟩

/-! ## C6: missing analysis input -/

/-- C6.  Starting the renderer on a missing analysis file surfaces the
`FileNotFoundError` as the two console error lines of `main`, the
process does not crash (the entry point returns normally), and no chart
image file is created: the file map is unchanged. -/
theorem missing_analysis_file_handling (fs : FS) (analysisFile outputDir reportFile : String)
    (h : getFile fs analysisFile = none) :
    (visualizerInit fs analysisFile outputDir).2 = Except.error PyError.fileNotFound
    ∧ (visualizeMain fs analysisFile outputDir reportFile).2
      = ["ERROR: Analysis file \x27" ++ analysisFile ++ "\x27 not found.",
         "Run the search tool with --analyze flag first."]
    ∧ (visualizeMain fs analysisFile outputDir reportFile).1.files = fs.files := by
  refine ⟨?_, ?_⟩
  · rw [visualizerInit_none fs analysisFile outputDir h]
  · unfold visualizeMain
    rw [visualizerInit_none fs analysisFile outputDir h]
    by_cases he : fs.existsPath outputDir <;> simp [he]

/-- Witness for C6: a missing default analysis file on the empty file
system yields the error message and leaves the (empty) file map
unchanged. -/
theorem missing_analysis_file_handling_witness :
    (visualizeMain fsEmpty "llm_literature_repos_analysis.json" "visualizations" "report.html").2
      = ["ERROR: Analysis file \x27llm_literature_repos_analysis.json\x27 not found.",
         "Run the search tool with --analyze flag first."]
    ∧ (visualizeMain fsEmpty "llm_literature_repos_analysis.json" "visualizations"
        "report.html").1.files = fsEmpty.files := by
  have h := missing_analysis_file_handling fsEmpty "llm_literature_repos_analysis.json"
    "visualizations" "report.html" (by decide)
  exact ⟨by rw [h.2.1]; rfl, h.2.2⟩

/-! ## C7: pie chart omits zero buckets -/

theorem pieFilter_eq_filter : ∀ (m : List (String × Nat)),
    (pieFilter m).1 = (m.filter (fun p => 0 < p.2)).map Prod.fst
    ∧ (pieFilter m).2 = (m.filter (fun p => 0 < p.2)).map Prod.snd
  | [] => ⟨rfl, rfl⟩
  | (l, s) :: rest => by
    have ih := pieFilter_eq_filter rest
    by_cases h : s > 0 <;> simp [pieFilter, List.filter_cons, h, ih.1, ih.2]

theorem pieFilter_sum : ∀ (m : List (String × Nat)),
    ((pieFilter m).2).sum = (m.map Prod.snd).sum
  | [] => rfl
  | (l, s) :: rest => by
    have ih := pieFilter_sum rest
    by_cases h : s > 0
    · simp [pieFilter, h, ih]
    · have hz : s = 0 := by omega
      simp [pieFilter, h, ih, hz]

/-- C7.  The star-distribution pie chart receives exactly the buckets
with strictly positive counts, in order: the written chart carries the
filtered labels and sizes, a label appears iff its bucket count is
positive, and the sizes of the remaining slices sum to the total over
all buckets, so each slice annotation `size/sum` is its percentage of
the non-zero total. -/
theorem pie_chart_omits_zero_buckets (fs : FS) (a : Analysis) (outputDir : String) :
    getFile (visualizeStarsDistribution fs a outputDir).1
        (pathJoin outputDir "stars_distribution.png")
      = some (FileData.pieChart (pieFilter a.stars_distribution).1
          (pieFilter a.stars_distribution).2)
    ∧ (pieFilter a.stars_distribution).1
        = (a.stars_distribution.filter (fun p => 0 < p.2)).map Prod.fst
    ∧ (pieFilter a.stars_distribution).2
        = (a.stars_distribution.filter (fun p => 0 < p.2)).map Prod.snd
    ∧ (∀ k : String, k ∈ (pieFilter a.stars_distribution).1
        ↔ ∃ v : Nat, (k, v) ∈ a.stars_distribution ∧ 0 < v)
    ∧ ((pieFilter a.stars_distribution).2).sum
        = (a.stars_distribution.map Prod.snd).sum := by
  refine ⟨getFile_write fs _ _, (pieFilter_eq_filter _).1, (pieFilter_eq_filter _).2,
    fun k => ?_, pieFilter_sum _⟩
  rw [(pieFilter_eq_filter _).1]
  constructor
  · intro hmem
    obtain ⟨⟨k2, v⟩, hmem2, hk⟩ := List.mem_map.mp hmem
    obtain ⟨hin, hpos⟩ := List.mem_filter.mp hmem2
    subst hk
    exact ⟨v, hin, by simpa using hpos⟩
  · rintro ⟨v, hin, hpos⟩
    exact List.mem_map.mpr ⟨(k, v), List.mem_filter.mpr ⟨hin, by simpa using hpos⟩, rfl⟩

/-- Witness for C7 at Scenario 4: the `"0-10"` bucket with count zero is
omitted from the chart labels. -/
theorem pie_chart_omits_zero_buckets_witness :
    (pieFilter scenarioAnalysis.stars_distribution).1
        = (scenarioAnalysis.stars_distribution.filter (fun p => 0 < p.2)).map Prod.fst
    ∧ "0-10" ∉ (pieFilter scenarioAnalysis.stars_distribution).1 :=
  ⟨(pie_chart_omits_zero_buckets fsEmpty scenarioAnalysis "visualizations").2.1, by decide⟩

/-! ## C8: soft failure on remote errors -/

theorem queryFold_logs : ∀ (qs : List String) (respond : String → HttpResponse)
    (acc : List String × List Repo),
    (qs.foldl (queryStep respond) acc).1
      = acc.1 ++ qs.flatMap (fun q => ["Searching for: " ++ q] ++ (searchRepositories (respond q)).1)
  | [], _, acc => by simp
  | q :: rest, respond, acc => by
    rw [List.foldl_cons, queryFold_logs rest]
    simp [queryStep]

theorem queryFold_items : ∀ (qs : List String) (respond : String → HttpResponse)
    (acc : List String × List Repo),
    (qs.foldl (queryStep respond) acc).2
      = acc.2 ++ qs.flatMap (fun q => ((searchRepositories (respond q)).2).getD [])
  | [], _, acc => by simp
  | q :: rest, respond, acc => by
    rw [List.foldl_cons, queryFold_items rest]
    simp [queryStep]

theorem flatMap_congr_mem : ∀ (l : List String) (f g : String → List Repo),
    (∀ x ∈ l, f x = g x) → l.flatMap f = l.flatMap g
  | [], _, _, _ => rfl
  | x :: rest, f, g, h => by
    rw [List.flatMap_cons, List.flatMap_cons, h x (List.mem_cons_self x rest),
      flatMap_congr_mem rest f g (fun y hy => h y (List.mem_cons_of_mem x hy))]

/-- C8.  A query whose response has a non-200 status is reported on the
console with its status code and its body text, every other query is
still processed (each search progress line is printed), and the failed
query contributes zero results: replacing its response by an empty 200
success leaves the deduplicated result collection unchanged. -/
theorem remote_failure_soft (respond : String → HttpResponse) (q : String)
    (hq : q ∈ queries) (hs : (respond q).status ≠ 200) :
    ("Error: " ++ toString (respond q).status) ∈ (findLlmLiteratureProjects respond).1
    ∧ (respond q).text ∈ (findLlmLiteratureProjects respond).1
    ∧ (∀ q2 ∈ queries, ("Searching for: " ++ q2) ∈ (findLlmLiteratureProjects respond).1)
    ∧ (findLlmLiteratureProjects respond).2
        = (findLlmLiteratureProjects (fun q2 => if q2 = q then okEmpty else respond q2)).2 := by
  have hlogs : (findLlmLiteratureProjects respond).1
      = queries.flatMap
          (fun q2 => ["Searching for: " ++ q2] ++ (searchRepositories (respond q2)).1) := by
    show (queries.foldl (queryStep respond) ([], [])).1 = _
    rw [queryFold_logs]
    rfl
  have herr : (searchRepositories (respond q)).1
      = ["Error: " ++ toString (respond q).status, (respond q).text] := by
    simp [searchRepositories, hs]
  refine ⟨?_, ?_, ?_, ?_⟩
  · rw [hlogs]
    refine List.mem_flatMap.mpr ⟨q, hq, ?_⟩
    rw [herr]
    simp
  · rw [hlogs]
    refine List.mem_flatMap.mpr ⟨q, hq, ?_⟩
    rw [herr]
    simp
  · intro q2 hq2
    rw [hlogs]
    exact List.mem_flatMap.mpr ⟨q2, hq2, by simp⟩
  · show dedupeById (queries.foldl (queryStep respond) ([], [])).2
        = dedupeById (queries.foldl
            (queryStep (fun q2 => if q2 = q then okEmpty else respond q2)) ([], [])).2
    rw [queryFold_items, queryFold_items, List.nil_append, List.nil_append]
    refine congrArg dedupeById (flatMap_congr_mem queries _ _ ?_)
    intro q2 _
    by_cases he : q2 = q
    · subst he
      simp [searchRepositories, hs, okEmpty]
    · simp [he]

/-- Witness for C8 with an oracle that always answers 403. -/
theorem remote_failure_soft_witness :
    "Error: 403" ∈ (findLlmLiteratureProjects failingOracle).1
    ∧ "rate limit exceeded" ∈ (findLlmLiteratureProjects failingOracle).1 := by
  have h := remote_failure_soft failingOracle "ai storytelling" (by decide) (by decide)
  have he : ("Error: " ++ toString (failingOracle "ai storytelling").status) = "Error: 403" := by
    decide
  exact ⟨he ▸ h.1, h.2.1⟩

/-! ## C9: aggregation determinism -/

/-- C9.  Two runs of the aggregator over the same collection yield the
same `AggregateStatistics` in every field, iteration orders included:
the embedding of `analyze_results` is a total pure function of the
record list (CPython dicts iterate in insertion order and `sorted` is
deterministic; no clock, randomness or environment is read). -/
theorem analyze_deterministic (items1 items2 : List Repo) (h : items1 = items2) :
    analyzeResults items1 = analyzeResults items2
    ∧ (analyzeResults items1).languages = (analyzeResults items2).languages
    ∧ (analyzeResults items1).topics = (analyzeResults items2).topics
    ∧ (analyzeResults items1).created_dates = (analyzeResults items2).created_dates
    ∧ (analyzeResults items1).stars_distribution = (analyzeResults items2).stars_distribution
    ∧ (analyzeResults items1).total_count = (analyzeResults items2).total_count := by
  subst h
  exact ⟨rfl, rfl, rfl, rfl, rfl, rfl⟩

/-- Witness for C9 at Scenario 1. -/
theorem analyze_deterministic_witness :
    analyzeResults scenarioStars = analyzeResults scenarioStars :=
  (analyze_deterministic scenarioStars scenarioStars rfl).1
